import Mathlib

/-!
Verification of the SocialX ai-engine core: the personality trait scorer
(`src/personality/analyzer.py`), the pattern learner
(`src/learning/pattern_learner.py`) and the embedding service
(`src/embeddings/service.py`), shallowly embedded over `ℚ`.

External collaborators (spaCy tagging, TextBlob sentiment,
sentence-transformer embeddings, scikit-learn TF-IDF and KMeans, and
`np.linalg.norm`) are opaque library calls in the source; here they are
parameters of the embedded operations.  Fallible backends are modelled as
functions into `Except String _`, mirroring the `try/except` structure of
the Python code.
-/

-- The Batteries `Rat` arithmetic operations are `@[irreducible]`, which only
-- blocks definitional unfolding; making them semireducible lets `decide`
-- evaluate concrete rational computations.  Soundness is unaffected.
set_option allowUnsafeReducibility true in
attribute [semireducible] Rat.add Rat.mul Rat.inv Rat.sub

namespace SocialX

/-- Python `round` to an integer: round half to even (banker's rounding),
as CPython's built-in `round` behaves on exact halves. -/
def pyRound (q : ℚ) : ℤ :=
  if q - q.floor < 1/2 then q.floor
  else if 1/2 < q - q.floor then q.floor + 1
  else if q.floor % 2 = 0 then q.floor else q.floor + 1

/-- Python `round(q, 3)`. -/
def round3 (q : ℚ) : ℚ := (pyRound (q * 1000) : ℚ) / 1000

/-- Python `round(q, 2)`. -/
def round2 (q : ℚ) : ℚ := (pyRound (q * 100) : ℚ) / 100

/-- Python `round(q, 1)`. -/
def round1 (q : ℚ) : ℚ := (pyRound (q * 10) : ℚ) / 10

/-- `max(0.0, min(1.0, q))`, the clamp used by the trait scorer. -/
def pyClamp (q : ℚ) : ℚ := max 0 (min 1 q)

/-- One step of a stable descending insertion sort: `x` is placed before the
first element whose key is not greater than `x`'s.  Elements with strictly
greater keys stay in front; elements with equal keys that arrived earlier in
the input also stay in front of later ones, which is exactly the guarantee of
Python's stable `list.sort(key=…, reverse=True)`. -/
def insertDescBy {α β : Type} [LinearOrder β] (key : α → β) (x : α) :
    List α → List α
  | [] => [x]
  | y :: ys => if key x < key y then y :: insertDescBy key x ys else x :: y :: ys

/-- Stable descending sort by key, modelling `list.sort(key=…, reverse=True)`
and `sorted(…, key=…, reverse=True)`. -/
def sortDescBy {α β : Type} [LinearOrder β] (key : α → β) : List α → List α
  | [] => []
  | x :: xs => insertDescBy key x (sortDescBy key xs)

/-- One step of an ascending insertion sort (for `numpy.argsort`; numpy does
not fix tie order, this model keeps earlier elements first). -/
def insertAscBy {α β : Type} [LinearOrder β] (key : α → β) (x : α) :
    List α → List α
  | [] => [x]
  | y :: ys => if key y < key x then y :: insertAscBy key x ys else x :: y :: ys

/-- Ascending sort by key. -/
def sortAscBy {α β : Type} [LinearOrder β] (key : α → β) : List α → List α
  | [] => []
  | x :: xs => insertAscBy key x (sortAscBy key xs)

/-- `numpy.argsort` on a vector: index list sorted by ascending component. -/
def argsortAsc (v : List ℚ) : List ℕ :=
  sortAscBy (fun i => v.getD i 0) (List.range v.length)

/-- The keys of a list in first-occurrence order, as a Python
`collections.Counter` (an insertion-ordered dict) iterates them. -/
def firstSeenKeys {α : Type} [DecidableEq α] : List α → List α
  | [] => []
  | x :: xs => x :: (firstSeenKeys xs).filter (· ≠ x)

/-- `Counter(l).items()`: (key, multiplicity) pairs in first-occurrence
order. -/
def counterItems {α : Type} [DecidableEq α] (l : List α) : List (α × ℕ) :=
  (firstSeenKeys l).map (fun x => (x, l.count x))

/-- `Counter(l).most_common(n)`: pairs sorted by count descending — CPython
breaks count ties by first-insertion order, which the stable sort over the
insertion-ordered items reproduces. -/
def mostCommon {α : Type} [DecidableEq α] (l : List α) (n : ℕ) : List (α × ℕ) :=
  (sortDescBy (fun p => p.2) (counterItems l)).take n

/-! ## `src/personality/analyzer.py` -/

/-- The feature bundle `_extract_features` returns: lemma list, POS-tag list,
sentiment polarity, text length and average word length.  The spaCy/TextBlob
computation itself is an external model call, so the extractor is a parameter
of `analyze_texts`. -/
structure Features where
  words : List String
  pos_tags : List String
  sentiment : ℚ
  length : ℕ
  complexity : ℚ

/-- One entry of `PersonalityAnalyzer.TRAIT_INDICATORS`. -/
structure TraitIndicator where
  words : List String
  pos_tags : List String
  sentiment_weight : ℚ

/-- `PersonalityAnalyzer.TRAIT_INDICATORS`, transcribed from the source. -/
def TRAIT_INDICATORS : List (String × TraitIndicator) :=
  [("openness",
     ⟨["creative", "innovative", "curious", "imaginative", "explore", "new",
       "idea", "art"], ["ADJ", "ADV"], 3/10⟩),
   ("conscientiousness",
     ⟨["plan", "organize", "efficient", "reliable", "careful", "detail",
       "goal", "schedule"], ["VERB", "NOUN"], 2/10⟩),
   ("extraversion",
     ⟨["social", "outgoing", "energetic", "enthusiastic", "party", "people",
       "talk", "fun"], ["INTJ"], 4/10⟩),
   ("agreeableness",
     ⟨["kind", "helpful", "trust", "cooperative", "compassionate", "caring",
       "empathy", "support"], ["ADJ"], 5/10⟩),
   ("neuroticism",
     ⟨["stress", "worry", "anxious", "nervous", "unstable", "emotional",
       "moody", "fear"], ["ADJ", "NOUN"], -4/10⟩)]

/-- `PersonalityAnalyzer._calculate_trait_score`.  `word_freq` and `pos_tags`
are the concatenated lemma and POS multisets of all texts (the Counters of
`analyze_texts`, represented by the underlying lists; a Counter lookup is a
`List.count`, the sum of its values the list length). -/
def calculate_trait_score (ind : TraitIndicator) (word_freq pos_tags : List String)
    (sentiments : List ℚ) : ℚ :=
  let score : ℚ := 1/2
  let trait_word_count : ℕ := (ind.words.map (fun w => word_freq.count w)).sum
  let total_words : ℕ := word_freq.length
  let score := if 0 < total_words then
      score + ((trait_word_count : ℚ) / (total_words : ℚ)) * (3/10) else score
  let trait_pos_count : ℕ := (ind.pos_tags.map (fun p => pos_tags.count p)).sum
  let total_pos : ℕ := pos_tags.length
  let score := if 0 < total_pos then
      score + ((trait_pos_count : ℚ) / (total_pos : ℚ)) * (2/10) else score
  let avg_sentiment := sentiments.sum / (sentiments.length : ℚ)
  let score := score + avg_sentiment * ind.sentiment_weight
  round3 (pyClamp score)

/-- `PersonalityAnalyzer._default_personality`. -/
def default_personality : List (String × ℚ) :=
  [("openness", 5/10), ("conscientiousness", 5/10), ("extraversion", 5/10),
   ("agreeableness", 5/10), ("neuroticism", 3/10)]

/-- `PersonalityAnalyzer.analyze_texts`, parameterised by the feature
extractor (spaCy + TextBlob).  The result models the returned dict as an
insertion-ordered association list. -/
def analyze_texts (extract : String → Features) (texts : List String) :
    List (String × ℚ) :=
  if texts.isEmpty then default_personality
  else
    let word_freq := (texts.map (fun t => (extract t).words)).flatten
    let pos_tags := (texts.map (fun t => (extract t).pos_tags)).flatten
    let sentiments := texts.map (fun t => (extract t).sentiment)
    TRAIT_INDICATORS.map
      (fun ti => (ti.1, calculate_trait_score ti.2 word_freq pos_tags sentiments))

/-- The trait-score formula as the spec words it (for comparison against
`calculate_trait_score`, which is transcribed from the code):
`round(clamp(0.5 + word_ratio*0.3 + pos_ratio*0.2 + mean_sentiment*weight,
0, 1), 3)`, where the 0.3 term contributes 0 when the total lemma count is 0
and the 0.2 term contributes 0 when the total POS count is 0. -/
def spec_trait_score (ind : TraitIndicator) (word_freq pos_tags : List String)
    (sentiments : List ℚ) : ℚ :=
  let word_term : ℚ :=
    if word_freq.length = 0 then 0
    else (((ind.words.map (fun w => word_freq.count w)).sum : ℚ) /
      (word_freq.length : ℚ)) * (3/10)
  let pos_term : ℚ :=
    if pos_tags.length = 0 then 0
    else (((ind.pos_tags.map (fun p => pos_tags.count p)).sum : ℚ) /
      (pos_tags.length : ℚ)) * (2/10)
  let mean_sentiment := sentiments.sum / (sentiments.length : ℚ)
  round3 (pyClamp (1/2 + word_term + pos_term + mean_sentiment * ind.sentiment_weight))

/-! ## `src/learning/pattern_learner.py` -/

/-- A parsed `datetime`, as far as the pattern learner reads one:
`datetime.fromisoformat` itself is external, so tweets carry the parsed
value.  `instantSec` orders instants (for `max(dates) - min(dates)`),
`hour` is `.hour`, `weekday` is `.strftime("%A")`. -/
structure PyDateTime where
  instantSec : ℤ
  hour : ℕ
  weekday : String
deriving DecidableEq

/-- A tweet dict, as far as `learn_posting_patterns` reads it:
`tweet.get("created_at")` may be absent (`None`). -/
structure Tweet where
  created_at : Option PyDateTime
deriving DecidableEq

/-- The dict `learn_posting_patterns` returns.  (On empty input the Python
dict lacks the `total_analyzed` key; here that field is 0.) -/
structure PostingPattern where
  best_hours : List ℕ
  best_days : List String
  avg_per_day : ℚ
  total_analyzed : ℕ
deriving DecidableEq

/-- `PatternLearner._calculate_date_range`: the day span between the earliest
and latest timestamp (`timedelta.days` floor-divides the second difference by
86400), floored at 1; 1 when fewer than two timestamps are present. -/
def calculate_date_range (tweets : List Tweet) : ℤ :=
  let dates := tweets.filterMap (fun t => t.created_at)
  if dates.length < 2 then 1
  else
    let secs := dates.map (fun d => d.instantSec)
    let mx := secs.foldl max (secs.headD 0)
    let mn := secs.foldl min (secs.headD 0)
    max ((mx - mn) / 86400) 1

/-- `PatternLearner.learn_posting_patterns`. -/
def learn_posting_patterns (tweets : List Tweet) : PostingPattern :=
  if tweets.isEmpty then ⟨[], [], 0, 0⟩
  else
    let stamps := tweets.filterMap (fun t => t.created_at)
    let hours := stamps.map (fun d => d.hour)
    let days := stamps.map (fun d => d.weekday)
    let best_hours := (mostCommon hours 5).map (fun p => p.1)
    let best_days := (mostCommon days 3).map (fun p => p.1)
    let date_range := calculate_date_range tweets
    let avg_per_day := (tweets.length : ℚ) / (max date_range 1 : ℤ)
    ⟨best_hours, best_days, round2 avg_per_day, tweets.length⟩

/-- One topic dict built by `learn_content_topics`. -/
structure Topic where
  cluster_id : ℕ
  keywords : List String
  tweet_count : ℕ
  prominence : ℚ
deriving DecidableEq

/-- The TF-IDF backend `self.tfidf.fit_transform` plus
`get_feature_names_out`: a document-by-term matrix and the feature names.
An exception is an `Except.error`. -/
abbrev TfidfBackend := List String → Except String (List (List ℚ) × List String)

/-- The `KMeans(n_clusters=…, random_state=42, n_init=10).fit_predict`
backend: per-sample labels and the cluster centers.  An exception is an
`Except.error`. -/
abbrev KMeansBackend :=
  ℕ → List (List ℚ) → Except String (List ℕ × List (List ℚ))

/-- `PatternLearner.learn_content_topics`, parameterised by the TF-IDF and
KMeans backends.  `center.argsort()[-10:][::-1]` is the last (at most) ten
indices of the ascending argsort, reversed. -/
def learn_content_topics (tfidf : TfidfBackend) (kmeans : KMeansBackend)
    (tweets : List String) (n_clusters : ℕ) : List Topic :=
  if tweets.length < n_clusters then []
  else
    match tfidf tweets with
    | .error _ => []
    | .ok (tfidf_matrix, feature_names) =>
      match kmeans n_clusters tfidf_matrix with
      | .error _ => []
      | .ok (clusters, centers) =>
        let topics := (List.range n_clusters).map (fun i =>
          let center := centers.getD i []
          let top_indices := ((argsortAsc center).drop (center.length - 10)).reverse
          let keywords := top_indices.map (fun idx => feature_names.getD idx "")
          let cluster_size := clusters.count i
          (⟨i, keywords.take 5, cluster_size,
            round3 ((cluster_size : ℚ) / (tweets.length : ℚ))⟩ : Topic))
        sortDescBy (fun t => t.prominence) topics

/-- An interaction record, as far as `learn_engagement_patterns` and
`identify_interests` read it. -/
structure Interaction where
  interaction_type : Option String
  created_at : Option PyDateTime
deriving DecidableEq

/-- The dict `learn_engagement_patterns` returns (empty input returns the
empty dict in Python; the claims only concern non-empty input, where every
field below is present). -/
structure EngagementPattern where
  total_interactions : ℕ
  by_type : List (String × ℕ)
  most_engaging_hours : List ℕ
  avg_per_day : ℚ
deriving DecidableEq

/-- `PatternLearner.learn_engagement_patterns`.  The `defaultdict` tallies
are insertion-ordered; `sorted(by_hour.items(), key=count, reverse=True)[:5]`
is the stable descending sort of those items. -/
def learn_engagement_patterns (interactions : List Interaction) :
    Option EngagementPattern :=
  if interactions.isEmpty then none
  else
    let types := interactions.map (fun i => i.interaction_type.getD "unknown")
    let by_type := counterItems types
    let hours := (interactions.filterMap (fun i => i.created_at)).map
      (fun d => d.hour)
    let by_hour := counterItems hours
    let engaging_hours := (sortDescBy (fun p => p.2) by_hour).take 5
    some ⟨interactions.length, by_type, engaging_hours.map (fun p => p.1),
      (interactions.length : ℚ) / 30⟩

/-! ## `src/embeddings/service.py` -/

/-- The `SentenceTransformer.encode` backend for one text; an exception is an
`Except.error`. -/
abbrev EncodeBackend := String → Except String (List ℚ)

/-- The batched `encode` backend (`encode_batch`). -/
abbrev EncodeBatchBackend := List String → Except String (List (List ℚ))

/-- `np.dot` of two vectors. -/
def dot (v w : List ℚ) : ℚ := (List.zipWith (· * ·) v w).sum

/-- `EmbeddingService.similarity`, parameterised by the encoder and by
`np.linalg.norm` (an external numpy call).  Both `encode` calls sit inside
`try`; a raise from either yields `0.0`. -/
def similarity (norm : List ℚ → ℚ) (enc : EncodeBackend) (text1 text2 : String) :
    ℚ :=
  match enc text1, enc text2 with
  | .ok emb1, .ok emb2 => dot emb1 emb2 / (norm emb1 * norm emb2)
  | _, _ => 0

/-- The `similarities` list `find_similar` builds: for each candidate
embedding, in candidate order, the pair `(index, cosine score against the
query embedding)`. -/
def cosineScores (norm : List ℚ → ℚ) (query_emb : List ℚ)
    (candidate_embs : List (List ℚ)) : List (ℕ × ℚ) :=
  (candidate_embs.map
    (fun cand_emb => dot query_emb cand_emb /
      (norm query_emb * norm cand_emb))).enum

/-- `EmbeddingService.find_similar`: cosine scores of the query against each
candidate, paired with the candidate index, stably sorted by descending score
(`similarities.sort(key=lambda x: x[1], reverse=True)`), first `top_k`
returned; `[]` on an empty candidate list or when a backend raises. -/
def find_similar (norm : List ℚ → ℚ) (enc : EncodeBackend)
    (encB : EncodeBatchBackend) (query : String) (candidates : List String)
    (top_k : ℕ) : List (ℕ × ℚ) :=
  if candidates.isEmpty then []
  else
    match enc query, encB candidates with
    | .ok query_emb, .ok candidate_embs =>
      (sortDescBy (fun p => p.2)
        (cosineScores norm query_emb candidate_embs)).take top_k
    | _, _ => []

/-- The order `find_similar`'s output is claimed to satisfy: strictly larger
score first, and for equal scores the smaller (earlier) candidate index
first. -/
def rankedBefore (a b : ℕ × ℚ) : Prop :=
  b.2 < a.2 ∨ (a.2 = b.2 ∧ a.1 < b.1)

/-- `EmbeddingService.cluster_texts`: fewer texts than clusters degrades to
singleton clusters `[[0], …, [n-1]]`; the same fallback answers a backend
exception; otherwise indices are grouped by KMeans label. -/
def cluster_texts (encB : EncodeBatchBackend) (kmeans : KMeansBackend)
    (texts : List String) (n_clusters : ℕ) : List (List ℕ) :=
  if texts.length < n_clusters then (List.range texts.length).map (fun i => [i])
  else
    match encB texts with
    | .error _ => (List.range texts.length).map (fun i => [i])
    | .ok embeddings =>
      match kmeans n_clusters embeddings with
      | .error _ => (List.range texts.length).map (fun i => [i])
      | .ok (labels, _) =>
        (List.range n_clusters).map
          (fun j => (labels.enum.filter (fun p => p.2 = j)).map (fun p => p.1))

/-! ## Supporting lemmas -/

lemma ratFloor_eq (q : ℚ) : q.floor = ⌊q⌋ := by
  rw [Rat.floor_def' , ← Rat.floor_def]

lemma pyRound_abs_le (q : ℚ) : |(pyRound q : ℚ) - q| ≤ 1/2 := by
  have h1 : (⌊q⌋ : ℚ) ≤ q := Int.floor_le q
  have h2 : q < ⌊q⌋ + 1 := Int.lt_floor_add_one q
  unfold pyRound
  rw [ratFloor_eq]
  split_ifs with ha hb hc <;> rw [abs_le] <;> constructor <;> push_cast <;>
    linarith

lemma round3_abs_le (q : ℚ) : |round3 q - q| ≤ 1/2000 := by
  have h := pyRound_abs_le (q * 1000)
  unfold round3
  have h2 : (pyRound (q * 1000) : ℚ) / 1000 - q =
      ((pyRound (q * 1000) : ℚ) - q * 1000) / 1000 := by ring
  rw [h2, abs_div, abs_of_pos (show (0:ℚ) < 1000 by norm_num)]
  rw [div_le_iff₀ (show (0:ℚ) < 1000 by norm_num)]
  linarith

lemma pyRound_nonneg {q : ℚ} (h : 0 ≤ q) : 0 ≤ pyRound q := by
  have h0 : (0:ℤ) ≤ ⌊q⌋ := Int.floor_nonneg.mpr h
  unfold pyRound
  rw [ratFloor_eq]
  split_ifs <;> omega

lemma pyRound_le {q : ℚ} {c : ℤ} (h : q ≤ c) : pyRound q ≤ c := by
  have h0 : ⌊q⌋ ≤ c := by
    have := Int.floor_mono h
    rwa [Int.floor_intCast] at this
  have hfl : (⌊q⌋ : ℚ) ≤ q := Int.floor_le q
  unfold pyRound
  rw [ratFloor_eq]
  split_ifs with h1 h2 h3
  · exact h0
  all_goals {
    rcases lt_or_eq_of_le h0 with hlt | heq
    · omega
    · exfalso
      have hc : ((⌊q⌋ : ℤ) : ℚ) = (c : ℚ) := by exact_mod_cast heq
      push_neg at h1
      linarith
  }

lemma round3_pyClamp_mem (q : ℚ) :
    0 ≤ round3 (pyClamp q) ∧ round3 (pyClamp q) ≤ 1 := by
  have hlo : 0 ≤ pyClamp q := le_max_left 0 _
  have hhi : pyClamp q ≤ 1 := max_le (by norm_num) (min_le_left 1 q)
  constructor
  · apply div_nonneg _ (by norm_num)
    exact_mod_cast pyRound_nonneg (by positivity)
  · rw [round3, div_le_one (show (0:ℚ) < 1000 by norm_num)]
    exact_mod_cast pyRound_le (c := 1000) (by push_cast; linarith)

lemma insertDescBy_perm {α β : Type} [LinearOrder β] (key : α → β) (x : α)
    (l : List α) : (insertDescBy key x l).Perm (x :: l) := by
  induction l with
  | nil => exact List.Perm.refl _
  | cons y ys ih =>
    simp only [insertDescBy]
    split_ifs with h
    · exact (ih.cons y).trans (List.Perm.swap x y ys)
    · exact List.Perm.refl _

lemma sortDescBy_perm {α β : Type} [LinearOrder β] (key : α → β)
    (l : List α) : (sortDescBy key l).Perm l := by
  induction l with
  | nil => exact List.Perm.refl _
  | cons x xs ih =>
    exact (insertDescBy_perm key x _).trans (ih.cons x)

lemma insertDescBy_pairwise (x : ℕ × ℚ) (l : List (ℕ × ℚ))
    (hl : l.Pairwise rankedBefore) (hx : ∀ y ∈ l, x.1 < y.1) :
    (insertDescBy (fun p => p.2) x l).Pairwise rankedBefore := by
  induction l with
  | nil => simp [insertDescBy]
  | cons y ys ih =>
    rw [List.pairwise_cons] at hl
    obtain ⟨hy, hys⟩ := hl
    simp only [insertDescBy]
    split_ifs with h
    · rw [List.pairwise_cons]
      refine ⟨?_, ih hys (fun z hz => hx z (List.mem_cons_of_mem y hz))⟩
      intro z hz
      rw [(insertDescBy_perm _ x ys).mem_iff, List.mem_cons] at hz
      rcases hz with rfl | hz
      · exact Or.inl h
      · exact hy z hz
    · rw [List.pairwise_cons]
      refine ⟨?_, List.Pairwise.cons hy hys⟩
      intro z hz
      rw [List.mem_cons] at hz
      have hle : z.2 ≤ x.2 := by
        rcases hz with rfl | hz
        · exact not_lt.mp h
        · rcases hy z hz with h1 | h1
          · exact le_of_lt (lt_of_lt_of_le h1 (not_lt.mp h))
          · rw [← h1.1]; exact not_lt.mp h
      have hidx : x.1 < z.1 := by
        rcases hz with rfl | hz
        · exact hx z (List.mem_cons_self z ys)
        · exact hx z (List.mem_cons_of_mem y hz)
      rcases lt_or_eq_of_le hle with hlt | heq
      · exact Or.inl hlt
      · exact Or.inr ⟨heq.symm, hidx⟩

lemma sortDescBy_pairwise (l : List (ℕ × ℚ))
    (h : l.Pairwise (fun a b => a.1 < b.1)) :
    (sortDescBy (fun p => p.2) l).Pairwise rankedBefore := by
  induction l with
  | nil => simp [sortDescBy]
  | cons x xs ih =>
    rw [List.pairwise_cons] at h
    simp only [sortDescBy]
    exact insertDescBy_pairwise x _ (ih h.2)
      (fun y hy => h.1 y ((sortDescBy_perm _ xs).mem_iff.mp hy))

lemma le_fst_of_mem_enumFrom {α : Type} {p : ℕ × α} :
    ∀ {n : ℕ} {l : List α}, p ∈ List.enumFrom n l → n ≤ p.1 := by
  intro n l
  induction l generalizing n with
  | nil => intro h; simp at h
  | cons x xs ih =>
    intro h
    rw [List.enumFrom_cons, List.mem_cons] at h
    rcases h with rfl | h
    · exact le_refl n
    · exact (Nat.le_succ n).trans (ih h)

lemma enumFrom_pairwise_fst {α : Type} (n : ℕ) (l : List α) :
    (List.enumFrom n l).Pairwise (fun a b => a.1 < b.1) := by
  induction l generalizing n with
  | nil => simp
  | cons x xs ih =>
    rw [List.enumFrom_cons, List.pairwise_cons]
    exact ⟨fun p hp => Nat.lt_of_succ_le (le_fst_of_mem_enumFrom hp), ih (n + 1)⟩

lemma enum_pairwise_fst {α : Type} (l : List α) :
    l.enum.Pairwise (fun a b => a.1 < b.1) :=
  enumFrom_pairwise_fst 0 l

lemma list_range_map_sum {M : Type} [AddCommMonoid M] (f : ℕ → M) (k : ℕ) :
    ((List.range k).map f).sum = ∑ i in Finset.range k, f i := by
  induction k with
  | zero => simp
  | succ n ih =>
    rw [List.range_succ, List.map_append, List.sum_append,
      Finset.sum_range_succ, ih]
    simp

lemma sum_range_count (labels : List ℕ) (k : ℕ) (h : ∀ l ∈ labels, l < k) :
    ∑ i in Finset.range k, labels.count i = labels.length := by
  induction labels with
  | nil => simp
  | cons x ls ih =>
    have hx : x ∈ Finset.range k :=
      Finset.mem_range.mpr (h x (List.mem_cons_self x ls))
    have ihs := ih (fun l hl => h l (List.mem_cons_of_mem x hl))
    simp only [List.count_cons, List.length_cons]
    rw [Finset.sum_add_distrib, ihs]
    congr 1
    simp only [beq_iff_eq]
    rw [Finset.sum_ite_eq (Finset.range k) x (fun _ => 1), if_pos hx]

lemma mem_of_mem_firstSeenKeys {α : Type} [DecidableEq α] {x : α} :
    ∀ {l : List α}, x ∈ firstSeenKeys l → x ∈ l := by
  intro l
  induction l with
  | nil => intro h; simp [firstSeenKeys] at h
  | cons y ys ih =>
    intro h
    simp only [firstSeenKeys, List.mem_cons] at h
    rcases h with rfl | h
    · exact List.mem_cons_self x ys
    · exact List.mem_cons_of_mem y (ih (List.mem_of_mem_filter h))

lemma firstSeenKeys_const {α : Type} [DecidableEq α] (l : List α) (a : α)
    (hne : l ≠ []) (h : ∀ x ∈ l, x = a) : firstSeenKeys l = [a] := by
  cases l with
  | nil => exact absurd rfl hne
  | cons y ys =>
    have hy : y = a := h y (List.mem_cons_self y ys)
    subst hy
    simp only [firstSeenKeys]
    congr 1
    rw [List.filter_eq_nil_iff]
    intro b hb
    have hb' : b = y := h b (List.mem_cons_of_mem _ (mem_of_mem_firstSeenKeys hb))
    simp [hb']

lemma mostCommon_const {α : Type} [DecidableEq α] (l : List α) (a : α) (n : ℕ)
    (hne : l ≠ []) (h : ∀ x ∈ l, x = a) (hn : n ≠ 0) :
    mostCommon l n = [(a, l.length)] := by
  have hc : l.count a = l.length := by
    rw [List.count_eq_length]
    intro b hb
    exact (h b hb).symm
  obtain ⟨m, rfl⟩ := Nat.exists_eq_succ_of_ne_zero hn
  unfold mostCommon counterItems
  rw [firstSeenKeys_const l a hne h]
  simp [sortDescBy, insertDescBy, hc]

lemma length_filterMap_isSome {α β : Type} (f : α → Option β) (l : List α)
    (h : ∀ x ∈ l, (f x).isSome) : (l.filterMap f).length = l.length := by
  induction l with
  | nil => rfl
  | cons x xs ih =>
    obtain ⟨y, hy⟩ := Option.isSome_iff_exists.mp (h x (List.mem_cons_self x xs))
    rw [List.filterMap_cons_some hy, List.length_cons, List.length_cons,
      ih (fun z hz => h z (List.mem_cons_of_mem x hz))]

lemma foldl_min_le (l : List ℤ) (a : ℤ) : l.foldl min a ≤ a := by
  induction l generalizing a with
  | nil => exact le_refl a
  | cons x xs ih => exact le_trans (ih (min a x)) (min_le_left a x)

lemma le_foldl_max (l : List ℤ) (a : ℤ) : a ≤ l.foldl max a := by
  induction l generalizing a with
  | nil => exact le_refl a
  | cons x xs ih => exact le_trans (le_max_left a x) (ih (max a x))

lemma foldl_max_mem (l : List ℤ) (a : ℤ) :
    l.foldl max a = a ∨ l.foldl max a ∈ l := by
  induction l generalizing a with
  | nil => exact Or.inl rfl
  | cons x xs ih =>
    rcases ih (max a x) with h | h
    · rcases max_choice a x with hm | hm
      · exact Or.inl (by rw [List.foldl_cons, h, hm])
      · exact Or.inr (by rw [List.foldl_cons, h, hm]; exact List.mem_cons_self x xs)
    · exact Or.inr (List.mem_cons_of_mem x h)

lemma foldl_min_mem (l : List ℤ) (a : ℤ) :
    l.foldl min a = a ∨ l.foldl min a ∈ l := by
  induction l generalizing a with
  | nil => exact Or.inl rfl
  | cons x xs ih =>
    rcases ih (min a x) with h | h
    · rcases min_choice a x with hm | hm
      · exact Or.inl (by rw [List.foldl_cons, h, hm])
      · exact Or.inr (by rw [List.foldl_cons, h, hm]; exact List.mem_cons_self x xs)
    · exact Or.inr (List.mem_cons_of_mem x h)

lemma calculate_trait_score_mem (ind : TraitIndicator) (wf pt : List String)
    (ss : List ℚ) : 0 ≤ calculate_trait_score ind wf pt ss ∧
      calculate_trait_score ind wf pt ss ≤ 1 :=
  round3_pyClamp_mem _

lemma calculate_eq_spec (ind : TraitIndicator) (wf pt : List String)
    (ss : List ℚ) :
    calculate_trait_score ind wf pt ss = spec_trait_score ind wf pt ss := by
  simp only [calculate_trait_score, spec_trait_score]
  split_ifs <;>
    first
      | omega
      | (refine congrArg round3 (congrArg pyClamp ?_); push_cast; ring)

/-- Claim C2: for every list of texts (empty or not) and every feature
extractor, `analyze_texts` returns exactly the five trait keys openness,
conscientiousness, extraversion, agreeableness, neuroticism in that order and
no others, and every score lies in [0, 1]. -/
theorem analyze_texts_keys_and_bounds (extract : String → Features)
    (texts : List String) :
    (analyze_texts extract texts).map Prod.fst =
      ["openness", "conscientiousness", "extraversion", "agreeableness",
       "neuroticism"] ∧
    ∀ p ∈ analyze_texts extract texts, 0 ≤ p.2 ∧ p.2 ≤ 1 := by
  unfold analyze_texts
  split_ifs with h
  · exact ⟨rfl, by decide⟩
  · refine ⟨rfl, ?_⟩
    intro p hp
    rw [List.mem_map] at hp
    obtain ⟨ti, hti, rfl⟩ := hp
    exact calculate_trait_score_mem ti.2 _ _ _

/-- Claim C3: for every non-empty list of texts, each of the five traits'
returned score equals `round(clamp(0.5 + word_ratio*0.3 + pos_ratio*0.2 +
mean_sentiment*trait_weight, 0, 1), 3)` with the 0.3 and 0.2 terms
contributing 0 when the respective totals are 0 — `spec_trait_score` is that
formula as the spec words it. -/
theorem trait_score_formula (extract : String → Features) (texts : List String)
    (h : texts ≠ []) :
    analyze_texts extract texts =
      TRAIT_INDICATORS.map (fun ti => (ti.1,
        spec_trait_score ti.2 ((texts.map (fun t => (extract t).words)).flatten)
          ((texts.map (fun t => (extract t).pos_tags)).flatten)
          (texts.map (fun t => (extract t).sentiment)))) := by
  unfold analyze_texts
  rw [if_neg (by simpa using h)]
  simp only [calculate_eq_spec]

/-- Witness for `trait_score_formula` at a concrete extractor and text. -/
theorem trait_score_formula_witness :
    ([""] : List String) ≠ [] ∧
    analyze_texts (fun _ => ⟨[], [], 0, 0, 0⟩) [""] =
      TRAIT_INDICATORS.map (fun ti => (ti.1, spec_trait_score ti.2 [] [] [0])) :=
  ⟨by decide, trait_score_formula _ _ (by decide)⟩

/-- Claim C6: `analyze_texts` on the empty collection returns exactly the
fixed default set (0.5 for four traits, 0.3 for neuroticism), by the early
return, for every extractor. -/
theorem analyze_texts_empty_default (extract : String → Features) :
    analyze_texts extract [] =
      [("openness", 1/2), ("conscientiousness", 1/2), ("extraversion", 1/2),
       ("agreeableness", 1/2), ("neuroticism", 3/10)] := rfl

/-- Claim C1 counterexample: with one text and k = 2, `learn_content_topics`
returns the empty list, not one singleton cluster (the guard branch fires
before any backend runs). -/
theorem content_topics_not_singleton_cex :
    (learn_content_topics (fun _ => .ok ([[1]], ["w"]))
      (fun _ _ => .ok ([0], [[1]])) ["a"] 2).length ≠ 1 := by decide

/-- Claim C1 amended: with fewer texts than the requested cluster count,
`learn_content_topics` returns the empty list, while the singleton-cluster
degradation the spec describes belongs to the embedding service's
`cluster_texts`, which returns exactly `len(texts)` singleton clusters
`[[0], …, [n-1]]`. -/
theorem content_topics_few_texts_empty (tfidf : TfidfBackend)
    (kmeans : KMeansBackend) (encB : EncodeBatchBackend) (kmC : KMeansBackend)
    (tweets : List String) (n_clusters : ℕ) (h : tweets.length < n_clusters) :
    learn_content_topics tfidf kmeans tweets n_clusters = [] ∧
    cluster_texts encB kmC tweets n_clusters =
      (List.range tweets.length).map (fun i => [i]) := by
  constructor
  · unfold learn_content_topics
    rw [if_pos h]
  · unfold cluster_texts
    rw [if_pos h]

/-- Witness for `content_topics_few_texts_empty` at one text and k = 2. -/
theorem content_topics_few_texts_empty_witness :
    (["a"] : List String).length < 2 ∧
    (learn_content_topics (fun _ => .ok ([[1]], ["w"]))
        (fun _ _ => .ok ([0], [[1]])) ["a"] 2 = [] ∧
      cluster_texts (fun _ => .ok [[1]]) (fun _ _ => .ok ([0], [[1]])) ["a"] 2 =
        (List.range (["a"] : List String).length).map (fun i => [i])) :=
  ⟨by decide, content_topics_few_texts_empty _ _ _ _ _ _ (by decide)⟩

/-- Claim C8: for every list of ten tweets whose timestamps all parse and
fall at hour 14 on one and the same Monday (same day and hour encoded on the
instant: all within one 3600-second window starting at that Monday's 14:00),
`learn_posting_patterns` returns `best_hours = [14]`,
`best_days = ["Monday"]` and `avg_per_day = 10` — the date-span divisor is
floored at 1 day. -/
theorem posting_patterns_monday_universal (tweets : List Tweet)
    (hlen : tweets.length = 10)
    (hsome : ∀ t ∈ tweets, t.created_at.isSome)
    (hprop : ∀ t ∈ tweets, ∀ d, t.created_at = some d →
      d.hour = 14 ∧ d.weekday = "Monday")
    (hsame : ∃ monday14 : ℤ, ∀ t ∈ tweets, ∀ d, t.created_at = some d →
      monday14 ≤ d.instantSec ∧ d.instantSec < monday14 + 3600) :
    learn_posting_patterns tweets = ⟨[14], ["Monday"], 10, 10⟩ := by
  have hne : tweets ≠ [] := by
    intro hcon; rw [hcon] at hlen; simp at hlen
  have hslen : (tweets.filterMap (fun t => t.created_at)).length = 10 := by
    rw [length_filterMap_isSome _ _ hsome, hlen]
  have hsmem : ∀ d ∈ tweets.filterMap (fun t => t.created_at),
      ∃ t ∈ tweets, t.created_at = some d := by
    intro d hd
    rw [List.mem_filterMap] at hd
    obtain ⟨t, ht, hcd⟩ := hd
    exact ⟨t, ht, hcd⟩
  have hd14 : ∀ d ∈ tweets.filterMap (fun t => t.created_at), d.hour = 14 := by
    intro d hd
    obtain ⟨t, ht, hcd⟩ := hsmem d hd
    exact (hprop t ht d hcd).1
  have hdMon : ∀ d ∈ tweets.filterMap (fun t => t.created_at),
      d.weekday = "Monday" := by
    intro d hd
    obtain ⟨t, ht, hcd⟩ := hsmem d hd
    exact (hprop t ht d hcd).2
  have hdr : calculate_date_range tweets = 1 := by
    unfold calculate_date_range
    rw [if_neg (by omega)]
    obtain ⟨base, hbase⟩ := hsame
    set secs := (tweets.filterMap (fun t => t.created_at)).map
      (fun d => d.instantSec) with hsecs
    have hsecs_len : secs.length = 10 := by
      rw [hsecs, List.length_map, hslen]
    have hhead : secs.headD 0 ∈ secs := by
      cases hs : secs with
      | nil => rw [hs] at hsecs_len; simp at hsecs_len
      | cons s ss => simp
    have hbounds : ∀ s ∈ secs, base ≤ s ∧ s < base + 3600 := by
      intro s hs
      rw [hsecs, List.mem_map] at hs
      obtain ⟨d, hd, rfl⟩ := hs
      obtain ⟨t, ht, hcd⟩ := hsmem d hd
      exact hbase t ht d hcd
    have hmx : secs.foldl max (secs.headD 0) ∈ secs := by
      rcases foldl_max_mem secs (secs.headD 0) with h | h
      · rw [h]; exact hhead
      · exact h
    have hmn : secs.foldl min (secs.headD 0) ∈ secs := by
      rcases foldl_min_mem secs (secs.headD 0) with h | h
      · rw [h]; exact hhead
      · exact h
    have h0 : 0 ≤ secs.foldl max (secs.headD 0) - secs.foldl min (secs.headD 0) := by
      have h1 := foldl_min_le secs (secs.headD 0)
      have h2 := le_foldl_max secs (secs.headD 0)
      omega
    have hlt : secs.foldl max (secs.headD 0) - secs.foldl min (secs.headD 0)
        < 86400 := by
      have h1 := hbounds _ hmx
      have h2 := hbounds _ hmn
      omega
    dsimp only
    rw [Int.ediv_eq_zero_of_lt h0 hlt]
    decide
  unfold learn_posting_patterns
  rw [if_neg (by simpa using hne)]
  simp only [PostingPattern.mk.injEq]
  refine ⟨?_, ?_, ?_, hlen⟩
  · rw [mostCommon_const _ 14 5 ?_ ?_ (by norm_num)]
    · rfl
    · intro hcon
      have := congrArg List.length hcon
      rw [List.length_map, hslen] at this
      simp at this
    · intro x hx
      rw [List.mem_map] at hx
      obtain ⟨d, hd, rfl⟩ := hx
      exact hd14 d hd
  · rw [mostCommon_const _ "Monday" 3 ?_ ?_ (by norm_num)]
    · rfl
    · intro hcon
      have := congrArg List.length hcon
      rw [List.length_map, hslen] at this
      simp at this
    · intro x hx
      rw [List.mem_map] at hx
      obtain ⟨d, hd, rfl⟩ := hx
      exact hdMon d hd
  · rw [hdr, hlen]
    decide

/-- Witness for `posting_patterns_monday_universal` at ten concrete tweets
within one Monday hour-14 window. -/
theorem posting_patterns_monday_universal_witness :
    ((List.replicate 10 (⟨some ⟨1722852000, 14, "Monday"⟩⟩ : Tweet)).length = 10 ∧
      ∀ t ∈ List.replicate 10 (⟨some ⟨1722852000, 14, "Monday"⟩⟩ : Tweet),
        t.created_at.isSome) ∧
    learn_posting_patterns
        (List.replicate 10 (⟨some ⟨1722852000, 14, "Monday"⟩⟩ : Tweet)) =
      ⟨[14], ["Monday"], 10, 10⟩ :=
  ⟨⟨by decide, by decide⟩,
   posting_patterns_monday_universal _ (by decide) (by decide)
     (by
       intro t ht d hd
       rw [List.eq_of_mem_replicate ht] at hd
       cases hd
       exact ⟨rfl, rfl⟩)
     ⟨1722852000, by
       intro t ht d hd
       rw [List.eq_of_mem_replicate ht] at hd
       cases hd
       exact ⟨le_refl _, by norm_num⟩⟩⟩

/-- Claim C7: for every non-empty interaction list,
`learn_engagement_patterns` reports `avg_per_day` equal to the interaction
count divided by the fixed constant 30, independent of timestamps; 60
interactions yield exactly 2. -/
theorem engagement_avg_per_day_const30 (interactions : List Interaction)
    (h : interactions ≠ []) :
    (learn_engagement_patterns interactions).map (fun p => p.avg_per_day) =
      some ((interactions.length : ℚ) / 30) ∧
    (interactions.length = 60 →
      (learn_engagement_patterns interactions).map (fun p => p.avg_per_day) =
        some 2) := by
  have h1 : (learn_engagement_patterns interactions).map (fun p => p.avg_per_day)
      = some ((interactions.length : ℚ) / 30) := by
    unfold learn_engagement_patterns
    rw [if_neg (by simpa using h)]
    rfl
  refine ⟨h1, fun h60 => ?_⟩
  rw [h1, h60]
  norm_num

/-- Witness for `engagement_avg_per_day_const30` at 60 interactions. -/
theorem engagement_avg_per_day_const30_witness :
    (List.replicate 60 (⟨none, none⟩ : Interaction)) ≠ [] ∧
    ((learn_engagement_patterns
        (List.replicate 60 (⟨none, none⟩ : Interaction))).map
          (fun p => p.avg_per_day) =
        some (((List.replicate 60 (⟨none, none⟩ : Interaction)).length : ℚ) / 30) ∧
      ((List.replicate 60 (⟨none, none⟩ : Interaction)).length = 60 →
        (learn_engagement_patterns
            (List.replicate 60 (⟨none, none⟩ : Interaction))).map
              (fun p => p.avg_per_day) = some 2)) :=
  ⟨by decide, engagement_avg_per_day_const30 _ (by decide)⟩

/-- Claim C4 counterexample: three texts in three singleton clusters (a
label assignment KMeans produces for three distinct points with k = 3) give
prominences of `round(1/3, 3) = 0.333` each, summing to 0.999 — not within
1e-6 of 1.0. -/
theorem prominence_sum_tolerance_cex :
    ¬ |((learn_content_topics (fun _ => .ok ([[1], [1], [1]], ["w"]))
          (fun _ _ => .ok ([0, 1, 2], [[1], [1], [1]])) ["a", "b", "c"] 3).map
        (fun t => t.prominence)).sum - 1| ≤ 1/1000000 := by decide

/-- Claim C4 amended: whenever `learn_content_topics` runs real clustering
(`len(texts) >= k`, both backends succeed, and the label assignment puts each
sample in exactly one of the k clusters), the rounded prominences sum to 1.0
within `k * 5e-4` (each 3-decimal rounding moves a term by at most 1/2000);
the unrounded member-count fractions sum to exactly 1. -/
theorem prominence_sum_bound (tfidf : TfidfBackend) (kmeans : KMeansBackend)
    (tweets : List String) (n_clusters : ℕ)
    (tfidf_matrix : List (List ℚ)) (feature_names : List String)
    (labels : List ℕ) (centers : List (List ℚ))
    (hk : 1 ≤ n_clusters) (hn : n_clusters ≤ tweets.length)
    (htf : tfidf tweets = .ok (tfidf_matrix, feature_names))
    (hkm : kmeans n_clusters tfidf_matrix = .ok (labels, centers))
    (hlen : labels.length = tweets.length)
    (hlab : ∀ l ∈ labels, l < n_clusters) :
    |((learn_content_topics tfidf kmeans tweets n_clusters).map
        (fun t => t.prominence)).sum - 1| ≤ (n_clusters : ℚ) / 2000 := by
  have hn0 : (tweets.length : ℚ) ≠ 0 := by
    have h1 : 0 < tweets.length := lt_of_lt_of_le hk hn
    exact_mod_cast Nat.pos_iff_ne_zero.mp h1
  have hone : ∑ i in Finset.range n_clusters,
      ((labels.count i : ℚ) / (tweets.length : ℚ)) = 1 := by
    rw [← Finset.sum_div]
    rw [show ∑ i in Finset.range n_clusters, ((labels.count i : ℚ)) =
        ((∑ i in Finset.range n_clusters, labels.count i : ℕ) : ℚ) by push_cast; rfl]
    rw [sum_range_count labels n_clusters hlab, hlen, div_self hn0]
  have hmain : |∑ i in Finset.range n_clusters,
      round3 ((labels.count i : ℚ) / (tweets.length : ℚ)) - 1| ≤
        (n_clusters : ℚ) / 2000 := by
    rw [← hone, ← Finset.sum_sub_distrib]
    refine le_trans (Finset.abs_sum_le_sum_abs _ _) ?_
    refine le_trans (Finset.sum_le_sum (fun i _ => round3_abs_le _)) ?_
    rw [Finset.sum_const, Finset.card_range, nsmul_eq_mul]
    exact le_of_eq (by ring)
  unfold learn_content_topics
  rw [if_neg (not_lt.mpr hn), htf]
  dsimp only
  rw [hkm]
  dsimp only
  rw [((sortDescBy_perm (fun t : Topic => t.prominence) _).map
    (fun t : Topic => t.prominence)).sum_eq]
  rw [List.map_map, list_range_map_sum]
  exact hmain

/-- Witness for `prominence_sum_bound` at three texts and k = 3. -/
theorem prominence_sum_bound_witness :
    (1 ≤ 3 ∧ 3 ≤ (["a", "b", "c"] : List String).length ∧
      (∀ l ∈ ([0, 1, 2] : List ℕ), l < 3)) ∧
    |((learn_content_topics (fun _ => .ok ([[1], [1], [1]], ["w"]))
          (fun _ _ => .ok ([0, 1, 2], [[1], [1], [1]])) ["a", "b", "c"] 3).map
        (fun t => t.prominence)).sum - 1| ≤ ((3 : ℕ) : ℚ) / 2000 :=
  ⟨⟨by decide, by decide, by decide⟩,
    prominence_sum_bound _ _ _ _ [[1], [1], [1]] ["w"] [0, 1, 2] [[1], [1], [1]]
      (by decide) (by decide) rfl rfl (by decide) (by decide)⟩

/-- Claim C5: when embedding succeeds, `find_similar` returns the first
`top_k` (index, score) pairs of the stably sorted score list: sorted by
descending similarity score, and for equal scores the original candidate
index order is preserved (`rankedBefore` holds pairwise). -/
theorem find_similar_sorted_stable (norm : List ℚ → ℚ) (enc : EncodeBackend)
    (encB : EncodeBatchBackend) (query : String) (candidates : List String)
    (top_k : ℕ) (query_emb : List ℚ) (candidate_embs : List (List ℚ))
    (hne : candidates ≠ []) (hq : enc query = .ok query_emb)
    (hc : encB candidates = .ok candidate_embs) :
    (sortDescBy (fun p => p.2) (cosineScores norm query_emb candidate_embs)).Perm
        (cosineScores norm query_emb candidate_embs) ∧
    (sortDescBy (fun p => p.2)
        (cosineScores norm query_emb candidate_embs)).Pairwise rankedBefore ∧
    find_similar norm enc encB query candidates top_k =
      (sortDescBy (fun p => p.2)
        (cosineScores norm query_emb candidate_embs)).take top_k := by
  refine ⟨sortDescBy_perm _ _,
    sortDescBy_pairwise _ (enum_pairwise_fst _), ?_⟩
  unfold find_similar
  rw [if_neg (by simpa using hne), hq, hc]

/-- Witness for `find_similar_sorted_stable` on three candidates with a
score tie between indices 0 and 2. -/
theorem find_similar_sorted_stable_witness :
    (["a", "b", "c"] : List String) ≠ [] ∧
    ((sortDescBy (fun p => p.2)
        (cosineScores (fun _ => 1) [1] [[1], [2], [1]])).Perm
          (cosineScores (fun _ => 1) [1] [[1], [2], [1]]) ∧
      (sortDescBy (fun p => p.2)
        (cosineScores (fun _ => 1) [1] [[1], [2], [1]])).Pairwise rankedBefore ∧
      find_similar (fun _ => 1) (fun _ => .ok [1]) (fun _ => .ok [[1], [2], [1]])
          "q" ["a", "b", "c"] 2 =
        (sortDescBy (fun p => p.2)
          (cosineScores (fun _ => 1) [1] [[1], [2], [1]])).take 2) :=
  ⟨by decide, find_similar_sorted_stable _ _ _ _ _ _ _ _ (by decide) rfl rfl⟩

/-- Claim C9: if either embedding call fails, `similarity` returns 0.0
rather than raising; when both succeed it returns
`dot(a, b) / (‖a‖ * ‖b‖)` of the two embedding vectors (`np.linalg.norm`
being the opaque `norm` parameter). -/
theorem similarity_failure_and_formula (norm : List ℚ → ℚ)
    (enc : EncodeBackend) (text1 text2 : String) :
    ((∀ e, enc text1 = .error e → similarity norm enc text1 text2 = 0) ∧
     (∀ e, enc text2 = .error e → similarity norm enc text1 text2 = 0)) ∧
    (∀ emb1 emb2, enc text1 = .ok emb1 → enc text2 = .ok emb2 →
      similarity norm enc text1 text2 = dot emb1 emb2 / (norm emb1 * norm emb2)) := by
  refine ⟨⟨?_, ?_⟩, ?_⟩
  · intro e he
    cases h2 : enc text2 <;> simp [similarity, he, h2]
  · intro e he
    cases h1 : enc text1 <;> simp [similarity, he, h1]
  · intro emb1 emb2 h1 h2
    simp [similarity, h1, h2]

/-- Witness for `similarity_failure_and_formula`: a failing encoder yields
0, a succeeding one the cosine formula. -/
theorem similarity_failure_and_formula_witness :
    similarity (fun _ => 1)
      (fun t => if t = "a" then .ok [1] else .error "err") "a" "b" = 0 ∧
    similarity (fun _ => 1) (fun _ => .ok [2]) "a" "b" =
      dot [2] [2] / (1 * 1) :=
  ⟨(similarity_failure_and_formula _ _ "a" "b").1.2 "err" rfl,
   (similarity_failure_and_formula _ _ "a" "b").2 [2] [2] rfl rfl⟩

/-- Claim C10: `find_similar` and `learn_content_topics` never propagate a
backend exception — an encoder, TF-IDF or KMeans error makes them return the
empty list. -/
theorem backend_errors_yield_empty (norm : List ℚ → ℚ) (enc : EncodeBackend)
    (encB : EncodeBatchBackend) (query : String) (candidates : List String)
    (top_k : ℕ) (tfidf : TfidfBackend) (kmeans : KMeansBackend)
    (tweets : List String) (n_clusters : ℕ) :
    (∀ e, enc query = .error e →
      find_similar norm enc encB query candidates top_k = []) ∧
    (∀ e, encB candidates = .error e →
      find_similar norm enc encB query candidates top_k = []) ∧
    (∀ e, tfidf tweets = .error e →
      learn_content_topics tfidf kmeans tweets n_clusters = []) ∧
    (∀ m fn e, tfidf tweets = .ok (m, fn) → kmeans n_clusters m = .error e →
      learn_content_topics tfidf kmeans tweets n_clusters = []) := by
  refine ⟨?_, ?_, ?_, ?_⟩
  · intro e he
    unfold find_similar
    split_ifs with h
    · rfl
    · cases hB : encB candidates <;> simp [he, hB]
  · intro e he
    unfold find_similar
    split_ifs with h
    · rfl
    · cases h1 : enc query <;> simp [he, h1]
  · intro e he
    unfold learn_content_topics
    split_ifs with h
    · rfl
    · simp [he]
  · intro m fn e htf hkm
    unfold learn_content_topics
    split_ifs with h
    · rfl
    · simp [htf, hkm]

/-- Witness for `backend_errors_yield_empty` at concrete failing
backends. -/
theorem backend_errors_yield_empty_witness :
    find_similar (fun _ => 1) (fun _ => .error "e") (fun _ => .ok [[1]])
        "q" ["a"] 5 = [] ∧
    find_similar (fun _ => 1) (fun _ => .ok [1]) (fun _ => .error "e")
        "q" ["a"] 5 = [] ∧
    learn_content_topics (fun _ => .error "e") (fun _ _ => .ok ([0], [[1]]))
        ["a"] 1 = [] ∧
    learn_content_topics (fun _ => .ok ([[1]], ["w"])) (fun _ _ => .error "e")
        ["a"] 1 = [] :=
  ⟨(backend_errors_yield_empty (fun _ => 1) (fun _ => .error "e")
      (fun _ => .ok [[1]]) "q" ["a"] 5 (fun _ => .error "")
      (fun _ _ => .error "") [] 0).1 "e" rfl,
   (backend_errors_yield_empty (fun _ => 1) (fun _ => .ok [1])
      (fun _ => .error "e") "q" ["a"] 5 (fun _ => .error "")
      (fun _ _ => .error "") [] 0).2.1 "e" rfl,
   (backend_errors_yield_empty (fun _ => 1) (fun _ => .error "")
      (fun _ => .error "") "q" [] 0 (fun _ => .error "e")
      (fun _ _ => .ok ([0], [[1]])) ["a"] 1).2.2.1 "e" rfl,
   (backend_errors_yield_empty (fun _ => 1) (fun _ => .error "")
      (fun _ => .error "") "q" [] 0 (fun _ => .ok ([[1]], ["w"]))
      (fun _ _ => .error "e") ["a"] 1).2.2.2 [[1]] ["w"] "e" rfl rfl⟩

end SocialX
